import Mathlib

/-
Verification of the email-triage pipeline (src/Code.py) against its
natural-language specification. The Python source is shallowly embedded:
the mailbox is a list of messages with read flags, external services
(IMAP transport, SMTP transport, model endpoint) are oracles passed as
parameters, and each tool body is translated statement by statement.
-/

namespace EmailAutomation

/-- A raw mailbox message as seen by the IMAP client (imap_tools MailMessage):
uid, envelope sender (msg.from_), subject, primary text content (msg.text,
the empty string standing for an absent / empty text part, which is falsy
in Python), and the Seen flag. -/
structure Msg where
  uid : Nat
  from_ : String
  subject : String
  text : String
  seen : Bool
deriving DecidableEq

/-- The dict appended by fetch_support_emails: keys from / subject / body. -/
structure Email where
  from_ : String
  subject : String
  body : String
deriving DecidableEq

/-- Python: content = msg.text or msg.subject (empty text is falsy). -/
def contentOf (m : Msg) : String :=
  if m.text.isEmpty then m.subject else m.text

/-- The fixed keyword set from line 64 of src/Code.py. -/
def SUPPORT_KEYWORDS : List String := ["help", "issue", "problem"]

/-- Char-list w is a leading segment of char-list s. -/
def charsStart : List Char → List Char → Bool
  | _, [] => true
  | [], _ :: _ => false
  | c :: s, d :: w => c = d && charsStart s w

/-- Char-list w occurs contiguously inside char-list s. -/
def charsContain (w : List Char) : List Char → Bool
  | [] => w.isEmpty
  | c :: rest => charsStart (c :: rest) w || charsContain w rest

/-- Python test: w in s.lower() — lowercasing maps each character, then the
pattern must occur contiguously. -/
def containsLowered (s w : String) : Bool :=
  charsContain w.toList (s.toList.map Char.toLower)

/-- Line 64: any(word in content.lower() for word in ["help", "issue", "problem"]). -/
def isCandidate (m : Msg) : Bool :=
  SUPPORT_KEYWORDS.any fun w => containsLowered (contentOf m) w

/-- The keyword predicate on a returned dict's body field. -/
def emailMatches (e : Email) : Bool :=
  SUPPORT_KEYWORDS.any fun w => containsLowered e.body w

/-- Lines 66-70: the dict built from a matched message. -/
def mkEmail (m : Msg) : Email :=
  ⟨m.from_, m.subject, contentOf m⟩

/-- Line 65: mailbox.flag(msg.uid, Seen, True) — set the Seen flag of every
message with the given uid. -/
def flagSeen (mailbox : List Msg) (uid : Nat) : List Msg :=
  mailbox.map fun m => if m.uid = uid then { m with seen := true } else m

/-- Observable side-effect trace of one fetch call: each flag RPC and each
append to the result list, in program order. -/
inductive FetchEvent where
  | flag (uid : Nat)
  | append (uid : Nat) (e : Email)
deriving DecidableEq

/-- The two events one matched message produces, in source order:
flag first (line 65), append second (line 66). -/
def pairEvents (m : Msg) : List FetchEvent :=
  [FetchEvent.flag m.uid, FetchEvent.append m.uid (mkEmail m)]

/-- Concatenated event pairs of a list of matched messages. -/
def pairTrace : List Msg → List FetchEvent
  | [] => []
  | m :: rest => pairEvents m ++ pairTrace rest

/-- Result of one fetch_support_emails call: final mailbox state, the
returned list, the event trace, and the error log. -/
structure FetchState where
  mailbox : List Msg
  batch : List Email
  events : List FetchEvent
  log : List String
deriving DecidableEq

/-- The loop of lines 61-73, one iteration per unread message, threading the
mailbox state, the count, the result list and the event trace. failIn models
the IMAP connection: some k means a connection or protocol error is raised
just before the (k+1)-th unread message would be processed (some 0 covers a
login failure); none means no error. The except branch of lines 74-75
catches the error, logs it, and the function falls through to line 76,
returning the partial emails_to_reply list. -/
def fetchGo (limit : Int) :
    Option Nat → List Msg → List Msg → Nat → List Email → List FetchEvent → FetchState
  | _, [], mailbox, _, acc, evs => ⟨mailbox, acc, evs, []⟩
  | failIn, m :: rest, mailbox, count, acc, evs =>
    if failIn = some 0 then
      ⟨mailbox, acc, evs, ["Error fetching emails"]⟩
    else if isCandidate m then
      let mailbox2 := flagSeen mailbox m.uid
      let acc2 := acc ++ [mkEmail m]
      let evs2 := evs ++ pairEvents m
      if (count : Int) + 1 ≥ limit then ⟨mailbox2, acc2, evs2, []⟩
      else fetchGo limit (Option.map (fun n => n - 1) failIn) rest mailbox2 (count + 1) acc2 evs2
    else fetchGo limit (Option.map (fun n => n - 1) failIn) rest mailbox count acc evs

/-- Lines 47-76: iterate the unread messages of the mailbox in mailbox order
(mailbox.fetch(AND(seen=False))), keyword-filter, flag and collect up to
limit of them; any transport error yields the partial batch. -/
def fetch_support_emails (limit : Int) (mailbox : List Msg) (failIn : Option Nat) : FetchState :=
  fetchGo limit failIn (mailbox.filter fun m => !m.seen) mailbox 0 [] []

/-- Line 95: the fixed fallback reply returned when the model call raises. -/
def FALLBACK_REPLY : String :=
  "Thank you for reaching out. We have received your email and will get back to you soon."

/-- Line 89: the prompt built around the incoming body. -/
def promptFor (email_body : String) : String :=
  "You are a helpful support assistant. Respond politely and helpfully to the email:\n\n"
    ++ email_body

/-- Lines 79-95: generate_email_reply. The model endpoint is an oracle from
prompt to either a response string or a raised error; the try block returns
the stripped response, the except branch logs and returns the fallback.
First component: the Python return value (always ok, never a raised error);
second: the error log. -/
def generate_email_reply (email_body : String)
    (inference : String → Except String String) : Except String String × List String :=
  let prompt := promptFor email_body
  match inference prompt with
  | Except.ok response => (Except.ok response.trim, [])
  | Except.error e => (Except.ok FALLBACK_REPLY, ["Error generating AI reply: " ++ e])

/-- One MIME part as attached on line 115: MIMEText(body, plain, utf-8). -/
structure MimePart where
  contentType : String
  charset : String
  content : String
deriving DecidableEq

/-- The outbound message of lines 111-115: a MIMEMultipart container (hence
multipart = true) holding the attached parts, with From / To / Subject
headers. -/
structure MimeMessage where
  from_ : String
  toAddr : String
  subject : String
  multipart : Bool
  parts : List MimePart
deriving DecidableEq

/-- Lines 111-115: msg = MIMEMultipart(); From, To, Subject headers; one
attached text/plain utf-8 part carrying the body. -/
def buildOutboundMessage (emailUser recipient subject body : String) : MimeMessage :=
  { from_ := emailUser
    toAddr := recipient
    subject := subject
    multipart := true
    parts := [⟨"text/plain", "utf-8", body⟩] }

/-- Modelled from the spec wording of section 4.3 (for comparison against
buildOutboundMessage, which is translated from the source): a single-part
(non-multipart) UTF-8 plain-text message carrying the body, From the
configured sender, To the given recipient, with the given subject. -/
def specSinglePartUtf8Text (m : MimeMessage)
    (sender recipient subject body : String) : Prop :=
  m.multipart = false ∧ m.parts = [⟨"text/plain", "utf-8", body⟩] ∧
  m.from_ = sender ∧ m.toAddr = recipient ∧ m.subject = subject

/-- Outcome of the SMTP session of lines 116-120 (connect, login, sendmail):
either it all succeeds or some step raises. -/
inductive SmtpOutcome where
  | ok
  | raises (e : String)
deriving DecidableEq

/-- Result of one send_email_tool call: the Python return value (None on
every path, never a raised error), the message that was constructed,
whether it was handed to the transport, and the log. -/
structure SendResult where
  ret : Except String Unit
  message : MimeMessage
  delivered : Bool
  log : List String

/-- Lines 98-122: send_email_tool. The message is constructed, then the
SMTP session runs; any transport or authentication error is caught by the
except branch of lines 121-122 and logged, and the function returns None. -/
def send_email_tool (emailUser recipient subject body : String)
    (transport : SmtpOutcome) : SendResult :=
  let msg := buildOutboundMessage emailUser recipient subject body
  match transport with
  | SmtpOutcome.ok =>
      ⟨Except.ok (), msg, true, ["Email sent to " ++ recipient]⟩
  | SmtpOutcome.raises e =>
      ⟨Except.ok (), msg, false, ["Error sending email: " ++ e]⟩

/-- A process environment: variable name to optional value, as read by
os.getenv. -/
def Env : Type := String → Option String

/-- os.environ[k] = v. -/
def setEnv (env : Env) (k v : String) : Env :=
  fun x => if x = k then some v else env x

/-- Lines 21-25: the module unconditionally writes placeholder values for
EMAIL_USER, EMAIL_PASS, MODEL_API_KEY, MODEL_API_BASE and MODEL_NAME into
the environment before reading any of them back. -/
def startupEnv (env : Env) : Env :=
  setEnv (setEnv (setEnv (setEnv (setEnv env
    "EMAIL_USER" "YOUR_MAIL")
    "EMAIL_PASS" "EMAIL_PASSS")
    "MODEL_API_KEY" "ENTER-API -KEY")
    "MODEL_API_BASE" "API-BASE")
    "MODEL_NAME" "LLM-MODEL"

/-- Python truthiness of an os.getenv result: None and the empty string are
falsy. -/
def truthy : Option String → Bool
  | none => false
  | some s => !s.isEmpty

/-- Lines 27-40: read the config values back with os.getenv and decide the
guard of line 37; true means the EnvironmentError of lines 38-40 is
raised. -/
def startupRaisesConfigError (env : Env) : Bool :=
  let e := startupEnv env
  let emailUser := e "EMAIL_USER"
  let emailPass := e "EMAIL_PASS"
  let modelApiKey := e "MODEL_API_KEY"
  let apiKey := e "API_KEY"
  let togetherApiKey := e "TOGETHER_API_KEY"
  let modelApiBase := e "MODEL_API_BASE"
  let modelName := e "MODEL_NAME"
  !(truthy emailUser && truthy emailPass
      && (truthy modelApiKey || truthy apiKey || truthy togetherApiKey)
      && truthy modelApiBase && truthy modelName)

/-- The fixed natural-language task string of lines 173-176. -/
def TASK : String :=
  "Fetch the first 5 unread support emails, generate polite replies, and send them back to the users."

/-- Outcome of one manager_agent.run(task) call: it returns, or it raises. -/
inductive CycleOutcome where
  | ok
  | raises (e : String)
deriving DecidableEq

/-- Observable events of the poll loop of lines 171-180. -/
inductive LoopEvent where
  | runCycle (task : String)
  | logError (e : String)
  | sleep (secs : Nat)
deriving DecidableEq

/-- One iteration of the while True loop: run the cycle inside try; on a
raise, the except branch of lines 178-179 logs; line 180 always sleeps 60
seconds. -/
def loopIteration : CycleOutcome → List LoopEvent
  | CycleOutcome.ok =>
      [LoopEvent.runCycle TASK, LoopEvent.sleep 60]
  | CycleOutcome.raises e =>
      [LoopEvent.runCycle TASK, LoopEvent.logError ("Error in CodeAgent loop: " ++ e),
        LoopEvent.sleep 60]

/-- Event trace of the first n iterations of the poll loop, the outcome of
iteration i given by the oracle cycles i. -/
def pollTrace (cycles : Nat → CycleOutcome) : Nat → List LoopEvent
  | 0 => []
  | n + 1 => pollTrace cycles n ++ loopIteration (cycles n)

/-- A concrete unread message whose text contains the keyword help. -/
def msgHelp : Msg :=
  ⟨1, "alice@example.com", "Need assistance", "please help with my order", false⟩

/-- A concrete unread message matching no keyword. -/
def msgSpam : Msg :=
  ⟨2, "bob@example.com", "Hello", "just saying hi", false⟩

/-- A concrete two-message mailbox used by the witnesses. -/
def sampleMailbox : List Msg := [msgHelp, msgSpam]

section FetchLemmas

lemma emailMatches_mkEmail (m : Msg) : emailMatches (mkEmail m) = isCandidate m := rfl

lemma pairTrace_append (xs : List Msg) (m : Msg) :
    pairTrace (xs ++ [m]) = pairTrace xs ++ pairEvents m := by
  induction xs with
  | nil => simp [pairTrace]
  | cons x xs ih => simp [pairTrace, ih]

lemma fetchGo_batch_length (limit : Int) :
    ∀ (pending : List Msg) (failIn : Option Nat) (mailbox : List Msg) (count : Nat)
      (acc : List Email) (evs : List FetchEvent),
      acc.length = count → (count : Int) < limit →
      ((fetchGo limit failIn pending mailbox count acc evs).batch.length : Int) ≤ limit := by
  intro pending
  induction pending with
  | nil =>
    intro failIn mailbox count acc evs hacc hlt
    simp only [fetchGo]
    omega
  | cons m rest ih =>
    intro failIn mailbox count acc evs hacc hlt
    simp only [fetchGo]
    by_cases hf : failIn = some 0
    · simp only [if_pos hf]
      omega
    · simp only [if_neg hf]
      by_cases hc : isCandidate m
      · simp only [if_pos hc]
        by_cases hb : (count : Int) + 1 ≥ limit
        · simp only [if_pos hb, List.length_append, List.length_cons, List.length_nil]
          omega
        · simp only [if_neg hb]
          exact ih _ _ _ _ _ (by simp [hacc]) (by omega)
      · simp only [if_neg hc]
        exact ih _ _ _ _ _ hacc hlt

lemma fetchGo_batch_matches (limit : Int) :
    ∀ (pending : List Msg) (failIn : Option Nat) (mailbox : List Msg) (count : Nat)
      (acc : List Email) (evs : List FetchEvent),
      (∀ e ∈ acc, emailMatches e = true) →
      ∀ e ∈ (fetchGo limit failIn pending mailbox count acc evs).batch, emailMatches e = true := by
  intro pending
  induction pending with
  | nil =>
    intro failIn mailbox count acc evs hacc
    simpa only [fetchGo] using hacc
  | cons m rest ih =>
    intro failIn mailbox count acc evs hacc
    simp only [fetchGo]
    by_cases hf : failIn = some 0
    · simpa only [if_pos hf] using hacc
    · simp only [if_neg hf]
      by_cases hc : isCandidate m
      · simp only [if_pos hc]
        have hacc2 : ∀ e ∈ acc ++ [mkEmail m], emailMatches e = true := by
          intro e he
          rcases List.mem_append.mp he with h | h
          · exact hacc e h
          · rcases List.mem_singleton.mp h with rfl
            rw [emailMatches_mkEmail]
            exact hc
        by_cases hb : (count : Int) + 1 ≥ limit
        · simpa only [if_pos hb] using hacc2
        · simp only [if_neg hb]
          exact ih _ _ _ _ _ hacc2
      · simp only [if_neg hc]
        exact ih _ _ _ _ _ hacc

lemma fetchGo_trace (limit : Int) (mailbox0 : List Msg) :
    ∀ (pending : List Msg) (failIn : Option Nat) (mailbox : List Msg) (count : Nat)
      (acc : List Email) (evs : List FetchEvent) (srcs0 : List Msg),
      evs = pairTrace srcs0 →
      acc = srcs0.map mkEmail →
      mailbox = srcs0.foldl (fun mb m => flagSeen mb m.uid) mailbox0 →
      (∀ m ∈ srcs0, m ∈ mailbox0 ∧ m.seen = false ∧ isCandidate m = true) →
      (∀ m ∈ pending, m ∈ mailbox0 ∧ m.seen = false) →
      ∃ srcs : List Msg,
        (fetchGo limit failIn pending mailbox count acc evs).events = pairTrace srcs ∧
        (fetchGo limit failIn pending mailbox count acc evs).batch = srcs.map mkEmail ∧
        (fetchGo limit failIn pending mailbox count acc evs).mailbox =
          srcs.foldl (fun mb m => flagSeen mb m.uid) mailbox0 ∧
        ∀ m ∈ srcs, m ∈ mailbox0 ∧ m.seen = false ∧ isCandidate m = true := by
  intro pending
  induction pending with
  | nil =>
    intro failIn mailbox count acc evs srcs0 hevs hacc hmb hsrcs hpend
    exact ⟨srcs0, by simpa only [fetchGo] using hevs, by simpa only [fetchGo] using hacc,
      by simpa only [fetchGo] using hmb, hsrcs⟩
  | cons m rest ih =>
    intro failIn mailbox count acc evs srcs0 hevs hacc hmb hsrcs hpend
    have hm : m ∈ mailbox0 ∧ m.seen = false := hpend m (List.mem_cons_self m rest)
    have hrest : ∀ x ∈ rest, x ∈ mailbox0 ∧ x.seen = false :=
      fun x hx => hpend x (List.mem_cons_of_mem m hx)
    simp only [fetchGo]
    by_cases hf : failIn = some 0
    · exact ⟨srcs0, by simpa only [if_pos hf] using hevs, by simpa only [if_pos hf] using hacc,
        by simpa only [if_pos hf] using hmb, hsrcs⟩
    · simp only [if_neg hf]
      by_cases hc : isCandidate m
      · simp only [if_pos hc]
        have hsrcs2 : ∀ x ∈ srcs0 ++ [m], x ∈ mailbox0 ∧ x.seen = false ∧ isCandidate x = true := by
          intro x hx
          rcases List.mem_append.mp hx with h | h
          · exact hsrcs x h
          · rcases List.mem_singleton.mp h with rfl
            exact ⟨hm.1, hm.2, hc⟩
        have hevs2 : evs ++ pairEvents m = pairTrace (srcs0 ++ [m]) := by
          rw [pairTrace_append, hevs]
        have hacc2 : acc ++ [mkEmail m] = (srcs0 ++ [m]).map mkEmail := by
          simp [hacc]
        have hmb2 : flagSeen mailbox m.uid =
            (srcs0 ++ [m]).foldl (fun mb x => flagSeen mb x.uid) mailbox0 := by
          simp [List.foldl_append, hmb]
        by_cases hb : (count : Int) + 1 ≥ limit
        · exact ⟨srcs0 ++ [m], by simpa only [if_pos hb] using hevs2,
            by simpa only [if_pos hb] using hacc2, by simpa only [if_pos hb] using hmb2, hsrcs2⟩
        · simp only [if_neg hb]
          exact ih _ _ _ _ _ (srcs0 ++ [m]) hevs2 hacc2 hmb2 hsrcs2 hrest
      · simp only [if_neg hc]
        exact ih _ _ _ _ _ srcs0 hevs hacc hmb hsrcs hrest

lemma fetchGo_err_eq_take (limit : Int) :
    ∀ (pending : List Msg) (k : Nat) (mailbox : List Msg) (count : Nat)
      (acc : List Email) (evs : List FetchEvent),
      (fetchGo limit (some k) pending mailbox count acc evs).batch =
        (fetchGo limit none (pending.take k) mailbox count acc evs).batch := by
  intro pending
  induction pending with
  | nil =>
    intro k mailbox count acc evs
    simp [fetchGo]
  | cons m rest ih =>
    intro k mailbox count acc evs
    cases k with
    | zero =>
      simp [fetchGo]
    | succ k =>
      have hne : (some (k + 1) : Option Nat) ≠ some 0 := by simp
      have hne2 : (none : Option Nat) ≠ some 0 := by simp
      simp only [List.take_succ_cons, fetchGo, if_neg hne, if_neg hne2]
      by_cases hc : isCandidate m
      · simp only [if_pos hc]
        by_cases hb : (count : Int) + 1 ≥ limit
        · simp only [if_pos hb]
        · simp only [if_neg hb, Option.map_some]
          exact ih k _ _ _ _
      · simp only [if_neg hc, Option.map_some]
        exact ih k _ _ _ _

lemma fetchGo_acc_grows (limit : Int) :
    ∀ (pending : List Msg) (failIn : Option Nat) (mailbox : List Msg) (count : Nat)
      (acc : List Email) (evs : List FetchEvent),
      ∃ t, (fetchGo limit failIn pending mailbox count acc evs).batch = acc ++ t := by
  intro pending
  induction pending with
  | nil =>
    intro failIn mailbox count acc evs
    exact ⟨[], by simp [fetchGo]⟩
  | cons m rest ih =>
    intro failIn mailbox count acc evs
    simp only [fetchGo]
    by_cases hf : failIn = some 0
    · exact ⟨[], by simp [if_pos hf]⟩
    · simp only [if_neg hf]
      by_cases hc : isCandidate m
      · simp only [if_pos hc]
        by_cases hb : (count : Int) + 1 ≥ limit
        · exact ⟨[mkEmail m], by simp [if_pos hb]⟩
        · simp only [if_neg hb]
          rcases ih (Option.map (fun n => n - 1) failIn) (flagSeen mailbox m.uid)
            (count + 1) (acc ++ [mkEmail m]) (evs ++ pairEvents m) with ⟨t, ht⟩
          exact ⟨[mkEmail m] ++ t, by simp [ht]⟩
      · simp only [if_neg hc]
        exact ih _ _ _ _ _

lemma fetchGo_take_grows (limit : Int) :
    ∀ (pending : List Msg) (k : Nat) (mailbox : List Msg) (count : Nat)
      (acc : List Email) (evs : List FetchEvent),
      ∃ t, (fetchGo limit none pending mailbox count acc evs).batch =
        (fetchGo limit none (pending.take k) mailbox count acc evs).batch ++ t := by
  intro pending
  induction pending with
  | nil =>
    intro k mailbox count acc evs
    exact ⟨[], by simp [fetchGo]⟩
  | cons m rest ih =>
    intro k mailbox count acc evs
    cases k with
    | zero =>
      simpa only [List.take_zero, fetchGo] using fetchGo_acc_grows limit (m :: rest) none mailbox count acc evs
    | succ k =>
      have hne : (none : Option Nat) ≠ some 0 := by simp
      simp only [List.take_succ_cons, fetchGo, if_neg hne]
      by_cases hc : isCandidate m
      · simp only [if_pos hc]
        by_cases hb : (count : Int) + 1 ≥ limit
        · exact ⟨[], by simp [if_pos hb]⟩
        · simp only [if_neg hb, Option.map_none]
          exact ih k _ _ _ _
      · simp only [if_neg hc, Option.map_none]
        exact ih k _ _ _ _

lemma fetchGo_log_cases (limit : Int) :
    ∀ (pending : List Msg) (failIn : Option Nat) (mailbox : List Msg) (count : Nat)
      (acc : List Email) (evs : List FetchEvent),
      (fetchGo limit failIn pending mailbox count acc evs).log = [] ∨
      (fetchGo limit failIn pending mailbox count acc evs).log = ["Error fetching emails"] := by
  intro pending
  induction pending with
  | nil =>
    intro failIn mailbox count acc evs
    exact Or.inl (by simp [fetchGo])
  | cons m rest ih =>
    intro failIn mailbox count acc evs
    simp only [fetchGo]
    by_cases hf : failIn = some 0
    · exact Or.inr (by simp [if_pos hf])
    · simp only [if_neg hf]
      by_cases hc : isCandidate m
      · simp only [if_pos hc]
        by_cases hb : (count : Int) + 1 ≥ limit
        · exact Or.inl (by simp [if_pos hb])
        · simp only [if_neg hb]
          exact ih _ _ _ _ _
      · simp only [if_neg hc]
        exact ih _ _ _ _ _

lemma fetchGo_nonpos_first (limit : Int) (hlim : limit ≤ 0) :
    ∀ (pending : List Msg) (mailbox : List Msg) (m : Msg),
      pending.find? isCandidate = some m →
      (fetchGo limit none pending mailbox 0 [] []).batch = [mkEmail m] ∧
      (fetchGo limit none pending mailbox 0 [] []).events = pairEvents m := by
  intro pending
  induction pending with
  | nil =>
    intro mailbox m hfind
    simp [List.find?] at hfind
  | cons m0 rest ih =>
    intro mailbox m hfind
    by_cases hc : isCandidate m0
    · have hm : m0 = m := by
        have := List.find?_cons_of_pos rest hc
        rw [this] at hfind
        exact Option.some.inj hfind
      subst hm
      have hne : (none : Option Nat) ≠ some 0 := by simp
      have hb : (0 : Int) + 1 ≥ limit := by omega
      simp only [fetchGo, if_neg hne, if_pos hc, Nat.cast_zero, if_pos hb]
      exact ⟨by simp, by simp⟩
    · have hfind2 : rest.find? isCandidate = some m := by
        have := List.find?_cons_of_neg rest hc
        rw [this] at hfind
        exact hfind
      have hne : (none : Option Nat) ≠ some 0 := by simp
      simp only [fetchGo, if_neg hne, if_neg hc, Option.map_none]
      exact ih mailbox m hfind2

end FetchLemmas

/-- C1: for every call fetch_support_emails(limit) with limit ≥ 1, every
mailbox state and every transport outcome, the returned list contains at
most limit entries, and every returned entry's body, lowercased, contains
at least one of the keywords help, issue, problem. -/
theorem C1_fetch_limit_and_keywords (limit : Int) (mailbox : List Msg)
    (failIn : Option Nat) (hlim : 1 ≤ limit) :
    ((fetch_support_emails limit mailbox failIn).batch.length : Int) ≤ limit ∧
    ∀ e ∈ (fetch_support_emails limit mailbox failIn).batch, emailMatches e = true := by
  constructor
  · exact fetchGo_batch_length limit _ failIn mailbox 0 [] [] rfl (by omega)
  · exact fetchGo_batch_matches limit _ failIn mailbox 0 [] [] (by simp)

/-- C1 witness: limit 2 on the concrete sample mailbox. -/
theorem C1_fetch_limit_and_keywords_witness :
    (1 : Int) ≤ 2 ∧
    (((fetch_support_emails 2 sampleMailbox none).batch.length : Int) ≤ 2 ∧
      ∀ e ∈ (fetch_support_emails 2 sampleMailbox none).batch, emailMatches e = true) :=
  ⟨by norm_num, C1_fetch_limit_and_keywords 2 sampleMailbox none (by norm_num)⟩

/-- C2: the fetch performs, for some list srcs of source messages, exactly
the event pairs flag-then-append in that order (so every returned entry was
flagged Seen strictly before being appended), the batch is exactly the
dicts of srcs, the final mailbox is the initial one with exactly the uids
of srcs flagged, and every flagged message was an unread keyword candidate —
hence no unread message failing the keyword filter is ever flagged. -/
theorem C2_flag_before_append (limit : Int) (mailbox : List Msg) (failIn : Option Nat) :
    ∃ srcs : List Msg,
      (fetch_support_emails limit mailbox failIn).events = pairTrace srcs ∧
      (fetch_support_emails limit mailbox failIn).batch = srcs.map mkEmail ∧
      (fetch_support_emails limit mailbox failIn).mailbox =
        srcs.foldl (fun mb m => flagSeen mb m.uid) mailbox ∧
      ∀ m ∈ srcs, m ∈ mailbox ∧ m.seen = false ∧ isCandidate m = true := by
  apply fetchGo_trace limit mailbox _ failIn mailbox 0 [] [] [] rfl rfl rfl (by simp)
  intro m hm
  rcases List.mem_filter.mp hm with ⟨h1, h2⟩
  exact ⟨h1, by simpa using h2⟩

/-- C4: generate_email_reply never raises: its return value is always an
ok string — the model response with surrounding whitespace stripped when
the model call succeeds, and exactly the fixed fallback string when the
model call raises any error. -/
theorem C4_generate_reply_never_raises (email_body : String)
    (inference : String → Except String String) :
    (generate_email_reply email_body inference).1 =
      Except.ok (match inference (promptFor email_body) with
        | Except.ok response => response.trim
        | Except.error _ => FALLBACK_REPLY) := by
  cases h : inference (promptFor email_body) <;>
    simp [generate_email_reply, h]

/-- C5: send_email_tool never raises to its caller: for every recipient,
subject, body and transport outcome it returns normally (None), and the
log records either the success line or the caught error. -/
theorem C5_send_never_raises (emailUser recipient subject body : String)
    (transport : SmtpOutcome) :
    (send_email_tool emailUser recipient subject body transport).ret = Except.ok () ∧
    (send_email_tool emailUser recipient subject body transport).log =
      (match transport with
        | SmtpOutcome.ok => ["Email sent to " ++ recipient]
        | SmtpOutcome.raises e => ["Error sending email: " ++ e]) := by
  cases transport <;> exact ⟨rfl, rfl⟩

/-- C6: a connection or protocol error before the (k+1)-th unread message
does not raise: the call returns exactly the batch the loop had collected
from the first k unread messages, that partial batch is a prefix of the
no-error batch, it is empty when the error strikes at once (k = 0), and
the log is either empty or the caught-error line. -/
theorem C6_fetch_error_partial_batch (limit : Int) (mailbox : List Msg) (k : Nat) :
    (fetch_support_emails limit mailbox (some k)).batch =
      (fetchGo limit none ((mailbox.filter fun m => !m.seen).take k) mailbox 0 [] []).batch ∧
    (∃ t, (fetch_support_emails limit mailbox none).batch =
      (fetch_support_emails limit mailbox (some k)).batch ++ t) ∧
    (fetch_support_emails limit mailbox (some 0)).batch = [] ∧
    ((fetch_support_emails limit mailbox (some k)).log = [] ∨
      (fetch_support_emails limit mailbox (some k)).log = ["Error fetching emails"]) := by
  simp only [fetch_support_emails]
  refine ⟨fetchGo_err_eq_take limit _ k mailbox 0 [] [], ?_, ?_,
    fetchGo_log_cases limit _ (some k) mailbox 0 [] []⟩
  · rw [fetchGo_err_eq_take limit _ k mailbox 0 [] []]
    exact fetchGo_take_grows limit _ k mailbox 0 [] []
  · rw [fetchGo_err_eq_take limit _ 0 mailbox 0 [] []]
    simp [fetchGo]

/-- C7: the poll loop never terminates: after any n iterations, whatever
the cycle outcomes were — including a raised exception — a further
iteration is appended to the trace, and that iteration starts by running
the cycle and ends with the fixed 60-unit sleep. -/
theorem C7_poll_loop_never_terminates (cycles : Nat → CycleOutcome) (n : Nat) :
    pollTrace cycles (n + 1) = pollTrace cycles n ++ loopIteration (cycles n) ∧
    (loopIteration (cycles n)).head? = some (LoopEvent.runCycle TASK) ∧
    (loopIteration (cycles n)).getLast? = some (LoopEvent.sleep 60) := by
  refine ⟨rfl, ?_, ?_⟩ <;> cases cycles n <;> rfl

/-- C8 counterexample: at a concrete recipient, subject and body the
message constructed by send_email_tool is not a single-part UTF-8
plain-text message — it is a multipart container. -/
theorem C8_counterexample :
    ¬ specSinglePartUtf8Text
        ((send_email_tool "user@example.com" "alice@example.com" "Re: Need assistance"
          "Thanks" SmtpOutcome.ok).message)
        "user@example.com" "alice@example.com" "Re: Need assistance" "Thanks" := by
  unfold specSinglePartUtf8Text
  decide

/-- C8 amended: for every recipient, subject, body and transport outcome,
the outbound message constructed by send_email_tool is a multipart
container holding exactly one UTF-8 plain-text part with the given body,
whose From is the configured sender, To the given recipient and Subject
the given subject. -/
theorem C8_outbound_message_shape (emailUser recipient subject body : String)
    (transport : SmtpOutcome) :
    (send_email_tool emailUser recipient subject body transport).message =
      buildOutboundMessage emailUser recipient subject body ∧
    (send_email_tool emailUser recipient subject body transport).message.multipart = true ∧
    (send_email_tool emailUser recipient subject body transport).message.parts =
      [⟨"text/plain", "utf-8", body⟩] ∧
    (send_email_tool emailUser recipient subject body transport).message.from_ = emailUser ∧
    (send_email_tool emailUser recipient subject body transport).message.toAddr = recipient ∧
    (send_email_tool emailUser recipient subject body transport).message.subject = subject := by
  cases transport <;> exact ⟨rfl, rfl, rfl, rfl, rfl, rfl⟩

/-- C9: the startup error branch is unreachable: whatever the initial
process environment, the module first hardcodes non-empty placeholder
values for EMAIL_USER, EMAIL_PASS, MODEL_API_KEY, MODEL_API_BASE and
MODEL_NAME, so the guard of line 37 never raises the EnvironmentError —
refuting the claim that some environment reaches the startup error. -/
theorem C9_startup_error_unreachable (env : Env) :
    startupRaisesConfigError env = false := rfl

/-- C10: with limit ≤ 0 and a first unread keyword-matching message m, the
fetch still flags m read (the flag event is performed) and returns the
one-element batch [m], whose size exceeds the non-positive limit. -/
theorem C10_nonpositive_limit_overshoot (limit : Int) (mailbox : List Msg) (m : Msg)
    (hlim : limit ≤ 0)
    (hfind : (mailbox.filter fun x => !x.seen).find? isCandidate = some m) :
    (fetch_support_emails limit mailbox none).batch = [mkEmail m] ∧
    (fetch_support_emails limit mailbox none).events = pairEvents m ∧
    limit < ((fetch_support_emails limit mailbox none).batch.length : Int) := by
  have h := fetchGo_nonpos_first limit hlim (mailbox.filter fun x => !x.seen) mailbox m hfind
  refine ⟨h.1, h.2, ?_⟩
  have hb : (fetch_support_emails limit mailbox none).batch = [mkEmail m] := h.1
  rw [hb]
  simp only [List.length_cons, List.length_nil]
  omega

/-- C10 witness: limit 0 on the sample mailbox, whose first unread message
contains the keyword help. -/
theorem C10_nonpositive_limit_overshoot_witness :
    (0 : Int) ≤ 0 ∧
    (sampleMailbox.filter fun x => !x.seen).find? isCandidate = some msgHelp ∧
    ((fetch_support_emails 0 sampleMailbox none).batch = [mkEmail msgHelp] ∧
      (fetch_support_emails 0 sampleMailbox none).events = pairEvents msgHelp ∧
      (0 : Int) < ((fetch_support_emails 0 sampleMailbox none).batch.length : Int)) :=
  ⟨by norm_num, by decide,
    C10_nonpositive_limit_overshoot 0 sampleMailbox msgHelp (by norm_num) (by decide)⟩

end EmailAutomation
